import Mathlib

/-!
Verification of the gitingest MCP server (src/gitingest_mcp/server.py).

Python text is modelled as `List Char` (named `Str` below).  Each model
definition is a direct translation of the corresponding Python code in
server.py; line numbers in the doc comments refer to that file.  The
external ingestion collaborator (the gitingest package) is out of scope
and is passed in as an oracle function where needed.
-/

set_option maxRecDepth 10000

/-- Python strings are modelled as lists of characters. -/
abbrev Str := List Char

/-- Conversion from a Lean string literal to the model text type. -/
def S (s : String) : Str := s.data

/-- The single-quote character (code 39), used in Python message literals. -/
def sqc : Str := [Char.ofNat 39]

/-- Index-tracking substring scan: least index `≥ i` at which `pat` starts
in `s`, where `s` is the remaining text after position `i`. -/
def findIdxFrom : List Char → List Char → Nat → Option Nat
  | [], pat, i => if pat.isPrefixOf ([] : List Char) then some i else none
  | c :: cs, pat, i =>
    if pat.isPrefixOf (c :: cs) then some i else findIdxFrom cs pat (i + 1)

/-- Python `s.find(pat)`: least index at which `pat` occurs in `s`
(`none` for the Python result -1). -/
def strFind (s pat : Str) : Option Nat := findIdxFrom s pat 0

/-- Python `s.find(pat, start)`: least index `≥ start` at which `pat`
occurs in `s`. -/
def strFindFrom (s pat : Str) (start : Nat) : Option Nat :=
  (strFind (s.drop start) pat).map (fun i => i + start)

/-- Python `pat in s` (substring containment). -/
def strContains (s pat : Str) : Bool := (strFind s pat).isSome

/-- Python slice `s[a:b]` (with `0 ≤ a ≤ b` convention; `b < a` yields
the empty string exactly as in Python). -/
def sliceL (s : Str) (a b : Nat) : Str := (s.take b).drop a

/-- Fuel-driven worker for `replaceAll` (structural recursion on the fuel
so that the kernel can evaluate it). -/
def replaceGo (pat rep : List Char) : Nat → List Char → List Char
  | _, [] => []
  | 0, s => s
  | fuel + 1, c :: cs =>
    if pat ≠ [] ∧ pat.isPrefixOf (c :: cs) then
      rep ++ replaceGo pat rep fuel ((c :: cs).drop pat.length)
    else
      c :: replaceGo pat rep fuel cs

/-- Python `s.replace(pat, rep)`: replace every non-overlapping occurrence
of `pat` in `s` by `rep`, scanning left to right.  (The Python code never
calls `replace` with an empty pattern.) -/
def replaceAll (s pat rep : Str) : Str := replaceGo pat rep s.length s

/-- Characters stripped by Python `str.strip()` (the ASCII whitespace
characters that can occur in digest text). -/
def isPySpace (c : Char) : Bool :=
  c = ' ' || c = '\t' || c = '\n' || c = '\r' || c = Char.ofNat 11 || c = Char.ofNat 12

/-- Python `s.strip()`: remove leading and trailing whitespace. -/
def pyStrip (s : Str) : Str :=
  ((s.dropWhile isPySpace).reverse.dropWhile isPySpace).reverse

/-- Python `s.split(sep)` for a one-character separator; always returns a
nonempty list, and `"".split(c) = [""]`. -/
def splitOnChar (sep : Char) : List Char → List (List Char)
  | [] => [[]]
  | c :: cs =>
    match splitOnChar sep cs with
    | [] => [[c]]
    | l :: ls => if c = sep then [] :: l :: ls else (c :: l) :: ls

/-- Python `s.split(chr(10))`, used for line-oriented search. -/
def splitLines (s : Str) : List Str := splitOnChar '\n' s

/-- Decimal rendering of a natural number, as in a Python f-string. -/
def natToStr (n : Nat) : Str := Nat.toDigits 10 n

/-- Python `sep.join(ls)` with separator a newline. -/
def joinNL (ls : List Str) : Str := List.intercalate (S ("\n")) ls

/-- Python `repr` of a list of strings as it appears in the f-string error
messages (each element rendered with single quotes). -/
def pyReprStrList (l : List Str) : Str :=
  S ("[") ++ List.intercalate (S (", ")) (l.map (fun s => sqc ++ s ++ sqc)) ++ S ("]")

/-- Python truthiness of an optional string argument (`arguments.get(k)`):
false for a missing key and for the empty string. -/
def pyTruthy : Option Str → Bool
  | none => false
  | some s => !s.isEmpty

/-- One stored digest: the `(summary, tree, content)` triple produced by
the ingestion collaborator (server.py line 14). -/
structure Digest where
  summary : Str
  tree : Str
  content : Str
deriving DecidableEq, Inhabited

/-- The process-wide store `ingest_results`: a Python dict from the source
identifier to its digest, modelled as an insertion-ordered association
list without duplicate keys. -/
abbrev Store := List (Str × Digest)

/-- Python dict assignment `ingest_results[uri] = d`: replace in place if
the key exists (a dict keeps the original position), else append. -/
def storePut : Store → Str → Digest → Store
  | [], k, d => [(k, d)]
  | (k', d') :: rest, k, d =>
    if k' = k then (k, d) :: rest else (k', d') :: storePut rest k d

/-- Python dict lookup `ingest_results[k]` as an option. -/
def storeGet (s : Store) (k : Str) : Option Digest :=
  (s.find? (fun p => p.1 == k)).map (fun p => p.2)

/-- The keys of the store, in insertion order (`ingest_results.keys()`). -/
def storeKeys (s : Store) : List Str := s.map (fun p => p.1)

/-- AddressCodec encoding (server.py lines 34 and 91):
`uri.replace(C("://"), u).replace(C("/"), u).replace(C("."), u)` with `u`
an underscore, applied in that order. -/
def encode (s : Str) : Str :=
  replaceAll (replaceAll (replaceAll s (S ("://")) (S ("_"))) (S ("/")) (S ("_"))) (S (".")) (S ("_"))

/-- The key-resolution loop of `handle_read_resource` (lines 89 to 96):
first stored key whose encoding equals the encoding of the requested host,
or whose literal value equals the host. -/
def resolveResourceKey (keys : List Str) (host : Str) : Option Str :=
  keys.find? (fun k => encode k == encode host || k == host)

/-- Body of `handle_read_resource` (lines 68 to 111) after URI parsing:
given the host part and the resource type (the last path component),
return the requested facet or raise `ValueError`.  Raised errors are the
`Except.error` branch. -/
def handle_read_resource (store : Store) (host : Str) (resourceType : Str) :
    Except Str Str :=
  match store.find? (fun p => encode p.1 == encode host || p.1 == host) with
  | none =>
      .error (S ("No gitingest results found for: ") ++ host
        ++ S (". Available keys: ") ++ pyReprStrList (storeKeys store))
  | some p =>
      if resourceType = S ("summary") then .ok p.2.summary
      else if resourceType = S ("tree") then .ok p.2.tree
      else if resourceType = S ("content") then .ok p.2.content
      else .error (S ("Unknown resource type: ") ++ resourceType)

/-- The identifier-resolution loop shared by `handle_get_prompt` (lines
159 to 163) and `handle_query_repo` (lines 331 to 336): first stored key
`k` with `k == q or k.endswith(q)`, scanning in insertion order. -/
def resolveUri (keys : List Str) (q : Str) : Option Str :=
  keys.find? (fun k => k == q || List.isSuffixOf q k)

/-- The in-repository name of a queried repository (lines 344 to 347):
last path segment of the query uri, cut at the first dot if it has one. -/
def repoNameOf (u : Str) : Str :=
  let rn := (splitOnChar '/' u).getLastD []
  if strContains rn (S (".")) then (splitOnChar '.' rn).headD [] else rn

/-- A candidate delimiter line `f"### {p}"` followed by a newline. -/
def mkMarker (p : Str) : Str := S ("### ") ++ p ++ S ("\n")

/-- The marker search of the file branch (lines 363 to 384): pick the
initial marker (the hardcoded browser-use special case, else the verbatim
path), search `content`, and on failure fall back to the two repo-name
prefixes unless the marker already contains the special-case prefix.
Returns the matched marker and its index. -/
def fileMarkerSearch (content u repoName fp : Str) : Option (Str × Nat) :=
  let fm0 := if strContains u (S ("browser-use"))
    then mkMarker (S ("browser-use-browser-use/") ++ fp)
    else mkMarker fp
  match strFind content fm0 with
  | some i => some (fm0, i)
  | none =>
    if strContains fm0 (S ("browser-use-browser-use/")) then none
    else
      let fm1 := mkMarker (repoName ++ S ("-") ++ repoName ++ S ("/") ++ fp)
      match strFind content fm1 with
      | some i => some (fm1, i)
      | none =>
        let fm2 := mkMarker (repoName ++ S ("/") ++ fp)
        (strFind content fm2).map (fun i => (fm2, i))

/-- The ordered list of candidate delimiter lines that the control flow of
lines 363 to 384 actually tries, as an explicit list. -/
def candidateMarkers (u repoName fp : Str) : List Str :=
  if strContains u (S ("browser-use")) then
    [mkMarker (S ("browser-use-browser-use/") ++ fp)]
  else if strContains (mkMarker fp) (S ("browser-use-browser-use/")) then
    [mkMarker fp]
  else
    [mkMarker fp,
     mkMarker (repoName ++ S ("-") ++ repoName ++ S ("/") ++ fp),
     mkMarker (repoName ++ S ("/") ++ fp)]

/-- First candidate of an ordered list that occurs in `content`, with its
index. -/
def firstFoundMarker (content : Str) : List Str → Option (Str × Nat)
  | [] => none
  | m :: rest =>
    match strFind content m with
    | some i => some (m, i)
    | none => firstFoundMarker content rest

/-- The extracted (untrimmed) file section starting at position `b` of the
content blob (lines 393 to 401): up to the next occurrence of the bare
prefix at or after `b`, or to end of text. -/
def sectionAt (content : Str) (b : Nat) : Str :=
  match strFindFrom content (S ("### ")) b with
  | none => content.drop b
  | some e => sliceL content b e

/-- The numbered matching lines of a line-oriented substring search
(lines 407 to 408 and 414 to 415): `f"{i+1}: {line}"` for every line of
`text` that contains `term`. -/
def numberedMatches (text term : Str) : List Str :=
  ((splitLines text).enum.filter (fun p => strContains p.2 term)).map
    (fun p => natToStr (p.1 + 1) ++ S (": ") ++ p.2)

/-- The search block appended to a file report (lines 406 to 409): header
plus all matching lines, with no cap. -/
def fileMatchesBlock (fileContent term : Str) : Str :=
  S ("\n\nMatches for ") ++ sqc ++ term ++ sqc ++ S (":\n")
    ++ joinNL (numberedMatches fileContent term)

/-- The file branch of `handle_query_repo` (lines 359 to 411): locate the
file marker, slice the section, strip it, and optionally append the search
block when the search term is truthy and occurs in the untrimmed section. -/
def fileQueryText (content tree u repoName fp : Str) (st : Option Str) : Str :=
  match fileMarkerSearch content u repoName fp with
  | none =>
      S ("File not found: ") ++ fp ++ S ("\n\nAvailable files:\n") ++ tree
  | some fmi =>
      let fileContent := sectionAt content (fmi.2 + fmi.1.length)
      let base := S ("File: ") ++ fp ++ S ("\n\n") ++ pyStrip fileContent
      match st with
      | some t =>
          if (!t.isEmpty) && strContains fileContent t then
            base ++ fileMatchesBlock fileContent t
          else base
      | none => base

/-- The full-content search branch (lines 412 to 427): all matching lines
capped at the first 100, plus an overflow note carrying the exact count of
the remaining matches; a distinguished text when nothing matches. -/
def searchAllText (content term : Str) : Str :=
  let ml := numberedMatches content term
  if ml.isEmpty then
    S ("No matches found for: ") ++ sqc ++ term ++ sqc
  else
    let rt := S ("Search results for ") ++ sqc ++ term ++ sqc ++ S (":\n")
      ++ joinNL (ml.take 100)
    if 100 < ml.length then
      rt ++ S ("\n\n...and ") ++ natToStr (ml.length - 100) ++ S (" more matches.")
    else rt

/-- The not-ingested `ValueError` message of lines 338 to 340 (and the
identical one of lines 165 to 167). -/
def notIngestedMsg (q : Str) (keys : List Str) : Str :=
  S ("Repository not ingested yet: ") ++ q
    ++ S (". Use the ingest-repo tool first.\nAvailable repositories: ")
    ++ pyReprStrList keys

/-- Arguments of the query-repo tool (schema at lines 210 to 223;
`arguments.get` yields `none` for a missing key). -/
structure QueryArgs where
  repo_uri : Option Str
  resource_type : Option Str
  file_path : Option Str
  search_term : Option Str

/-- Result of `handle_query_repo`: a single returned text content, the
implicit Python `None` when no branch returns, or a raised `ValueError`. -/
inductive QueryOut where
  | text (s : Str)
  | noResult
  | raised (msg : Str)
deriving DecidableEq

/-- The resource-type values admitted by the query-repo tool input schema
(line 217 of `handle_list_tools`). -/
def resourceTypeEnum : List Str := [S ("summary"), S ("tree"), S ("content")]

/-- `handle_query_repo` (lines 319 to 430).  The resolution loop over
`ingest_results.keys()` followed by the dict lookup is modelled as one
`find?` over the key-digest pairs, which is equivalent because dict keys
are unique. -/
def handle_query_repo (store : Store) (args : QueryArgs) : QueryOut :=
  if !pyTruthy args.repo_uri then .raised (S ("Missing repo_uri"))
  else if !pyTruthy args.resource_type then .raised (S ("Missing resource_type"))
  else
    let u := args.repo_uri.getD []
    let rt := args.resource_type.getD []
    match store.find? (fun p => p.1 == u || List.isSuffixOf u p.1) with
    | none => .raised (notIngestedMsg u (storeKeys store))
    | some p =>
      let repoName := repoNameOf u
      if rt = S ("summary") then .text p.2.summary
      else if rt = S ("tree") then .text p.2.tree
      else if rt = S ("content") then
        if pyTruthy args.file_path then
          .text (fileQueryText p.2.content p.2.tree u repoName
            (args.file_path.getD []) args.search_term)
        else if pyTruthy args.search_term then
          .text (searchAllText p.2.content (args.search_term.getD []))
        else .text p.2.content
      else .noResult

/-- Arguments of the ingest-repo tool (schema at lines 194 to 209). -/
structure IngestArgs where
  repo_uri : Option Str
  output_file : Option Str
  max_file_size : Option Nat
  include_patterns : Option Str
  exclude_patterns : Option Str
  branch : Option Str

/-- The options handed to the external ingestion collaborator
(lines 253 to 286). -/
structure IngestOpts where
  max_file_size : Nat
  include_patterns : Option (List Str)
  exclude_patterns : Option (List Str)
  branch : Option Str
  output : Option Str
deriving DecidableEq

/-- Pattern parsing of lines 258 to 265: a truthy comma-separated string
becomes the collection of its stripped parts (Python builds a set; it is
modelled as the list of parts, which the opaque collaborator consumes). -/
def parsePatterns : Option Str → Option (List Str)
  | none => none
  | some s => if s.isEmpty then none else some ((splitOnChar ',' s).map pyStrip)

/-- Assembly of the collaborator options from the tool arguments
(lines 253 to 265; the default file-size cap is 10 MiB). -/
def optsOf (args : IngestArgs) : IngestOpts :=
  ⟨args.max_file_size.getD (10 * 1024 * 1024),
   parsePatterns args.include_patterns,
   parsePatterns args.exclude_patterns,
   args.branch,
   args.output_file⟩

/-- The success report of lines 294 to 309. -/
def successMessage (u : Str) (d : Digest) (fileCount tokenEstimate : Nat)
    (outputFile : Option Str) : Str :=
  S ("Successfully ingested repository: ") ++ u
    ++ S ("\n\nSummary:\n") ++ d.summary.take 500
    ++ S ("...\n\nStatistics:\n- Approximately ") ++ natToStr fileCount
    ++ S (" files processed\n- Approximately ") ++ natToStr tokenEstimate
    ++ S (" tokens in content\n- Content size: ") ++ natToStr d.content.length
    ++ S (" characters")
    ++ (match outputFile with
        | some f => if !f.isEmpty then S ("\nOutput saved to: ") ++ f else []
        | none => [])

/-- `handle_ingest_repo` (lines 245 to 316).  The gitingest collaborator
is the oracle `ingestFn`; its failure is the Python exception caught by
the `try` block.  The outer `Except.error` is the raised `ValueError` for
a missing argument; `Except.ok` carries the store after the call and the
returned text. -/
def handle_ingest_repo (ingestFn : Str → IngestOpts → Except Str Digest)
    (store : Store) (args : IngestArgs) : Except Str (Store × Str) :=
  if !pyTruthy args.repo_uri then .error (S ("Missing repo_uri"))
  else
    let u := args.repo_uri.getD []
    match ingestFn u (optsOf args) with
    | .error e =>
        .ok (store, S ("Error ingesting repository ") ++ u ++ S (": ") ++ e)
    | .ok d =>
        .ok (storePut store u d,
          successMessage u d (d.tree.count '\n') (d.content.length / 4)
            args.output_file)

/-- Follows the words of the TruncationPolicy section of the spec, for
comparison with the source: with `maxTokens` unset the text is unchanged,
otherwise text longer than `4 * maxTokens` characters is cut to that many
characters and a literal truncation `marker` is appended.  No counterpart
exists in server.py. -/
def truncateSpec (marker text : Str) (maxTokens : Option Nat) : Str :=
  match maxTokens with
  | none => text
  | some n => if 4 * n < text.length then text.take (4 * n) ++ marker else text

/-- Follows the words of the AddressCodec decode description of the spec,
for comparison with the source loop `resolveResourceKey`: first known
identifier whose encoding equals the token itself, or whose literal value
equals the token. -/
def decodeSpec (keys : List Str) (token : Str) : Option Str :=
  keys.find? (fun k => encode k == token || k == token)

theorem storeGet_storePut (s : Store) (k : Str) (d : Digest) :
    storeGet (storePut s k d) k = some d := by
  induction s with
  | nil => simp [storePut, storeGet, List.find?]
  | cons p rest ih =>
    obtain ⟨k2, d2⟩ := p
    by_cases h : k2 = k
    · subst h
      simp [storePut, storeGet, List.find?]
    · have hb : (k2 == k) = false := by
        simpa using h
      simp only [storePut, if_neg h]
      simpa [storeGet, List.find?, hb] using ih

theorem findIdxFrom_isSome_append (a pat b : List Char) (i : Nat) :
    (findIdxFrom (a ++ (pat ++ b)) pat i).isSome = true := by
  induction a generalizing i with
  | nil =>
    cases h : pat ++ b with
    | nil =>
      have hp : pat = [] := by
        cases pat with
        | nil => rfl
        | cons c cs => simp at h
      subst hp
      simp [findIdxFrom]
    | cons c cs =>
      have hp : pat.isPrefixOf (c :: cs) = true := by
        rw [← h]
        exact List.isPrefixOf_iff_prefix.mpr (List.prefix_append pat b)
      simp only [List.nil_append, h, findIdxFrom, hp, if_true, Option.isSome_some]
  | cons c a2 ih =>
    simp only [List.cons_append, findIdxFrom]
    by_cases hp : pat.isPrefixOf (c :: (a2 ++ (pat ++ b))) = true
    · simp [hp]
    · simp only [Bool.not_eq_true] at hp
      simp [hp, ih]

theorem strContains_middle (a pat b : Str) :
    strContains (a ++ pat ++ b) pat = true := by
  have h := findIdxFrom_isSome_append a pat b 0
  simpa [strContains, strFind, List.append_assoc] using h

theorem not_mem_replaceGo (pat rep : List Char) (f : Nat) (s : List Char) (c : Char)
    (hr : c ∉ rep) (hs : c ∉ s) : c ∉ replaceGo pat rep f s := by
  induction f generalizing s with
  | zero =>
    cases s with
    | nil => simp [replaceGo]
    | cons c2 cs => simpa [replaceGo] using hs
  | succ f2 ih =>
    cases s with
    | nil => simp [replaceGo]
    | cons c2 cs =>
      simp only [replaceGo]
      by_cases hp : pat ≠ [] ∧ pat.isPrefixOf (c2 :: cs) = true
      · have hsub : c ∉ (c2 :: cs).drop pat.length := fun hmem =>
          hs (List.drop_subset pat.length (c2 :: cs) hmem)
        simp only [if_pos hp, List.mem_append]
        exact fun h => h.elim (fun h1 => hr h1) (fun h2 => ih _ hsub h2)
      · have hc : c ≠ c2 := fun h => hs (h ▸ List.mem_cons_self c2 cs)
        have hcs : c ∉ cs := fun h => hs (List.mem_cons_of_mem c2 h)
        simp only [if_neg hp, List.mem_cons]
        exact fun h => h.elim hc (ih cs hcs)

theorem not_mem_replaceGo_single (c : Char) (rep : List Char) (hr : c ∉ rep)
    (f : Nat) (s : List Char) (hf : s.length ≤ f) :
    c ∉ replaceGo [c] rep f s := by
  induction f generalizing s with
  | zero =>
    have : s = [] := List.length_eq_zero.mp (Nat.le_zero.mp hf)
    subst this
    simp [replaceGo]
  | succ f2 ih =>
    cases s with
    | nil => simp [replaceGo]
    | cons c2 cs =>
      simp only [replaceGo]
      by_cases hc : c = c2
      · subst hc
        have hp : ([c] ≠ ([] : List Char)) ∧ [c].isPrefixOf (c :: cs) = true := by
          constructor
          · simp
          · simp [List.isPrefixOf]
        simp only [if_pos hp, List.length_cons, List.drop_succ_cons, List.drop_zero,
          List.mem_append, List.length_nil]
        have hcs : cs.length ≤ f2 := Nat.le_of_succ_le_succ (by simpa using hf)
        exact fun h => h.elim (fun h1 => hr h1) (fun h2 => ih cs hcs h2)
      · have hp : ¬(([c] ≠ ([] : List Char)) ∧ [c].isPrefixOf (c2 :: cs) = true) := by
          intro h
          have := h.2
          simp [List.isPrefixOf] at this
          exact hc (by simpa using this)
        have hcs : cs.length ≤ f2 := Nat.le_of_succ_le_succ (by simpa using hf)
        simp only [if_neg hp, List.mem_cons]
        exact fun h => h.elim hc (ih cs hcs)

theorem slash_not_mem_encode (s : Str) : '/' ∉ encode s := by
  have h1 : '/' ∉ replaceAll (replaceAll s (S ("://")) (S ("_"))) (S ("/")) (S ("_")) := by
    unfold replaceAll
    have : S ("/") = ['/'] := rfl
    rw [this]
    exact not_mem_replaceGo_single '/' (S ("_")) (by decide) _ _ (Nat.le_refl _)
  unfold encode replaceAll
  exact not_mem_replaceGo (S (".")) (S ("_")) _ _ '/' (by decide) h1

theorem dot_not_mem_encode (s : Str) : '.' ∉ encode s := by
  unfold encode replaceAll
  have : S (".") = ['.'] := rfl
  rw [this]
  exact not_mem_replaceGo_single '.' (S ("_")) (by decide) _ _ (Nat.le_refl _)

theorem pyTruthy_of_ne (u : Str) (hu : u ≠ []) : pyTruthy (some u) = true := by
  cases u with
  | nil => exact absurd rfl hu
  | cons c cs => rfl

theorem query_repo_unfold (store : Store) (u : Str) (p : Str × Digest)
    (rtv : Str) (fp st : Option Str)
    (hu : u ≠ []) (hrt : rtv ≠ [])
    (hres : store.find? (fun q => q.1 == u || List.isSuffixOf u q.1) = some p) :
    handle_query_repo store ⟨some u, some rtv, fp, st⟩ =
      (if rtv = S ("summary") then .text p.2.summary
       else if rtv = S ("tree") then .text p.2.tree
       else if rtv = S ("content") then
         if pyTruthy fp then
           .text (fileQueryText p.2.content p.2.tree u (repoNameOf u) (fp.getD []) st)
         else if pyTruthy st then .text (searchAllText p.2.content (st.getD []))
         else .text p.2.content
       else .noResult) := by
  unfold handle_query_repo
  simp [pyTruthy_of_ne u hu, pyTruthy_of_ne rtv hrt, hres]

/-- C2 counterexample: the query operation has no token budget and never
truncates.  With a stored content of 10 characters (more than 4 times any
budget of at most 2 tokens), the returned facet text is the full stored
content, with nothing cut and no truncation marker appended; the tool
arguments (`QueryArgs`, from the schema at lines 210 to 223) offer no
`maxTokens` field at all, so the 4-characters-per-token truncation the
claim describes can never be applied. -/
theorem truncation_refuted :
    handle_query_repo [(S ("r"), ⟨S ("s"), S ("t"), S ("0123456789")⟩)]
        ⟨some (S ("r")), some (S ("content")), none, none⟩
      = QueryOut.text (S ("0123456789"))
    ∧ (S ("0123456789")).length = 10
    ∧ truncateSpec (S ("M")) (S ("0123456789")) (some 1) ≠ S ("0123456789") :=
  ⟨by decide, by decide, by decide⟩

/-- C2 amended: the code defines no truncation and `query-repo` accepts no
token budget; every returned facet text (summary, tree, and full content)
is the stored text unchanged, which coincides with the specified
`truncate` applied with `maxTokens` unset, for any choice of truncation
marker. -/
theorem facet_text_untruncated (store : Store) (u k : Str) (d : Digest) (marker : Str)
    (hu : u ≠ [])
    (hres : store.find? (fun q => q.1 == u || List.isSuffixOf u q.1) = some (k, d)) :
    handle_query_repo store ⟨some u, some (S ("summary")), none, none⟩
      = .text (truncateSpec marker d.summary none)
    ∧ handle_query_repo store ⟨some u, some (S ("tree")), none, none⟩
      = .text (truncateSpec marker d.tree none)
    ∧ handle_query_repo store ⟨some u, some (S ("content")), none, none⟩
      = .text (truncateSpec marker d.content none) := by
  refine ⟨?_, ?_, ?_⟩
  · rw [query_repo_unfold store u (k, d) _ none none hu (by decide) hres]
    rw [if_pos rfl]
    rfl
  · rw [query_repo_unfold store u (k, d) _ none none hu (by decide) hres]
    rw [if_neg (by decide), if_pos rfl]
    rfl
  · rw [query_repo_unfold store u (k, d) _ none none hu (by decide) hres]
    rw [if_neg (by decide), if_neg (by decide), if_pos rfl]
    rfl

/-- Concrete digest used by several witnesses. -/
def wDigest : Digest := ⟨S ("sum"), S ("tr"), S ("con")⟩

/-- C2 witness: the amended theorem evaluated on a one-entry store. -/
theorem facet_text_untruncated_witness :
    (S ("r") ≠ ([] : Str))
    ∧ ([(S ("r"), wDigest)].find?
        (fun q => q.1 == S ("r") || List.isSuffixOf (S ("r")) q.1)
        = some (S ("r"), wDigest))
    ∧ (handle_query_repo [(S ("r"), wDigest)]
          ⟨some (S ("r")), some (S ("summary")), none, none⟩
        = .text (truncateSpec (S ("M")) wDigest.summary none)
      ∧ handle_query_repo [(S ("r"), wDigest)]
          ⟨some (S ("r")), some (S ("tree")), none, none⟩
        = .text (truncateSpec (S ("M")) wDigest.tree none)
      ∧ handle_query_repo [(S ("r"), wDigest)]
          ⟨some (S ("r")), some (S ("content")), none, none⟩
        = .text (truncateSpec (S ("M")) wDigest.content none)) :=
  ⟨by decide, by decide,
   facet_text_untruncated [(S ("r"), wDigest)] (S ("r")) (S ("r")) wDigest
     (S ("M")) (by decide) (by decide)⟩

theorem query_repo_file_branch (store : Store) (u k fp : Str) (d : Digest)
    (st : Option Str)
    (hu : u ≠ []) (hfp : fp ≠ [])
    (hres : store.find? (fun q => q.1 == u || List.isSuffixOf u q.1) = some (k, d)) :
    handle_query_repo store ⟨some u, some (S ("content")), some fp, st⟩ =
      .text (fileQueryText d.content d.tree u (repoNameOf u) fp st) := by
  rw [query_repo_unfold store u (k, d) _ (some fp) st hu (by decide) hres]
  rw [if_neg (by decide), if_neg (by decide), if_pos rfl]
  rw [pyTruthy_of_ne fp hfp]
  simp

/-- C5: when the marker search of the file branch finds the delimiter `fm`
at offset `idx` of the content blob, the returned report wraps exactly the
substring that starts at `idx + length fm` and ends at the next occurrence
of the bare prefix at or after that point (end of text when there is
none), trimmed of leading and trailing whitespace. -/
theorem section_extraction_bounds (store : Store) (u fp k : Str) (d : Digest)
    (fm : Str) (idx : Nat)
    (hu : u ≠ []) (hfp : fp ≠ [])
    (hres : store.find? (fun q => q.1 == u || List.isSuffixOf u q.1) = some (k, d))
    (hm : fileMarkerSearch d.content u (repoNameOf u) fp = some (fm, idx)) :
    handle_query_repo store ⟨some u, some (S ("content")), some fp, none⟩ =
      .text (S ("File: ") ++ fp ++ S ("\n\n")
        ++ pyStrip (match strFindFrom d.content (S ("### ")) (idx + fm.length) with
                    | none => d.content.drop (idx + fm.length)
                    | some e => sliceL d.content (idx + fm.length) e)) := by
  rw [query_repo_file_branch store u k fp d none hu hfp hres]
  unfold fileQueryText
  rw [hm]
  simp [sectionAt]

/-- Digest of the C5 witness, with the content of the worked example of
the claim. -/
def wC5digest : Digest :=
  ⟨S ("s"), S ("T"), S ("### hint/a/b.txt\nHELLO\n### other/file\nmore")⟩

/-- Store of the C5 witness. -/
def wC5store : Store := [(S ("hint"), wC5digest)]

/-- C5 witness: the worked example of the claim, evaluated; the extracted
text is exactly HELLO. -/
theorem section_extraction_bounds_witness :
    (S ("hint") ≠ ([] : Str))
    ∧ (S ("a/b.txt") ≠ ([] : Str))
    ∧ (wC5store.find?
        (fun q => q.1 == S ("hint") || List.isSuffixOf (S ("hint")) q.1)
        = some (S ("hint"), wC5digest))
    ∧ (fileMarkerSearch wC5digest.content (S ("hint")) (repoNameOf (S ("hint")))
        (S ("a/b.txt")) = some (mkMarker (S ("hint/a/b.txt")), 0))
    ∧ handle_query_repo wC5store
        ⟨some (S ("hint")), some (S ("content")), some (S ("a/b.txt")), none⟩
      = .text (S ("File: a/b.txt\n\nHELLO")) :=
  ⟨by decide, by decide, by decide, by decide,
   (section_extraction_bounds wC5store (S ("hint")) (S ("a/b.txt")) (S ("hint"))
      wC5digest (mkMarker (S ("hint/a/b.txt"))) 0
      (by decide) (by decide) (by decide) (by decide)).trans (by decide)⟩

/-- C10: a search term supplied to the file query leaves the report
exactly as it would be with no search term at all whenever the term does
not occur in the extracted (untrimmed) section text: no annotation, no
no-matches note, and no error. -/
theorem file_search_silent_no_match (store : Store) (u fp k t : Str) (d : Digest)
    (fm : Str) (idx : Nat)
    (hu : u ≠ []) (hfp : fp ≠ [])
    (hres : store.find? (fun q => q.1 == u || List.isSuffixOf u q.1) = some (k, d))
    (hm : fileMarkerSearch d.content u (repoNameOf u) fp = some (fm, idx))
    (hterm : strContains (sectionAt d.content (idx + fm.length)) t = false) :
    handle_query_repo store ⟨some u, some (S ("content")), some fp, some t⟩ =
      handle_query_repo store ⟨some u, some (S ("content")), some fp, none⟩ := by
  rw [query_repo_file_branch store u k fp d (some t) hu hfp hres,
      query_repo_file_branch store u k fp d none hu hfp hres]
  unfold fileQueryText
  rw [hm]
  simp [hterm]

/-- Digest of the C10 witness. -/
def wC10digest : Digest := ⟨S ("s"), S ("T"), S ("### f\nabc\n")⟩

/-- Store of the C10 witness. -/
def wC10store : Store := [(S ("r"), wC10digest)]

/-- C10 witness: a term that does not occur in the section produces the
very same report as no term at all. -/
theorem file_search_silent_no_match_witness :
    (strContains (sectionAt wC10digest.content (0 + (mkMarker (S ("f"))).length))
        (S ("zzz")) = false)
    ∧ handle_query_repo wC10store
        ⟨some (S ("r")), some (S ("content")), some (S ("f")), some (S ("zzz"))⟩
      = handle_query_repo wC10store
        ⟨some (S ("r")), some (S ("content")), some (S ("f")), none⟩ :=
  ⟨by decide,
   file_search_silent_no_match wC10store (S ("r")) (S ("f")) (S ("r")) (S ("zzz"))
     wC10digest (mkMarker (S ("f"))) 0
     (by decide) (by decide) (by decide) (by decide) (by decide)⟩

/-- C1 counterexample: `handle_ingest_repo` never reuses an existing
Digest.  With a Digest already stored for the source identifier r and a
collaborator producing a different triple, the call returns with the
stored Digest for r replaced by the collaborator result — so the stored
Digest is changed by the call, and the external collaborator was invoked
again (the new stored value can only come from it). -/
theorem ingest_reuse_refuted :
    (match handle_ingest_repo (fun _ _ => Except.ok ⟨S ("s2"), S ("t2"), S ("c2")⟩)
        [(S ("r"), ⟨S ("s1"), S ("t1"), S ("c1")⟩)]
        ⟨some (S ("r")), none, none, none, none, none⟩ with
     | Except.ok (st, _) => storeGet st (S ("r"))
     | Except.error _ => none)
      = some ⟨S ("s2"), S ("t2"), S ("c2")⟩
    ∧ storeGet [(S ("r"), ⟨S ("s1"), S ("t1"), S ("c1")⟩)] (S ("r"))
      = some ⟨S ("s1"), S ("t1"), S ("c1")⟩ :=
  ⟨by decide, by decide⟩

/-- C1 amended: the ingest operation always invokes the external
ingestion collaborator and stores its result, replacing any Digest
previously stored for the identifier (last-write-wins); after the call
the stored Digest for the identifier is the collaborator result. -/
theorem ingest_always_replaces (ig : Str → IngestOpts → Except Str Digest)
    (store : Store) (args : IngestArgs) (u : Str) (d : Digest)
    (hu : args.repo_uri = some u) (hne : u ≠ [])
    (hok : ig u (optsOf args) = Except.ok d) :
    handle_ingest_repo ig store args
      = Except.ok (storePut store u d,
          successMessage u d (d.tree.count '\n') (d.content.length / 4)
            args.output_file)
    ∧ storeGet (storePut store u d) u = some d := by
  constructor
  · unfold handle_ingest_repo
    rw [hu, pyTruthy_of_ne u hne]
    simp [hok]
  · exact storeGet_storePut store u d

/-- Collaborator oracle of the C1 witness. -/
def wC1digest : Digest := ⟨S ("s2"), S ("t2"), S ("c2")⟩

/-- Oracle of the C1 witness: ingestion always succeeds with `wC1digest`. -/
def wC1fn : Str → IngestOpts → Except Str Digest := fun _ _ => Except.ok wC1digest

/-- Store of the C1 witness, already holding a digest for r. -/
def wC1store : Store := [(S ("r"), ⟨S ("s1"), S ("t1"), S ("c1")⟩)]

/-- Arguments of the C1 witness. -/
def wC1args : IngestArgs := ⟨some (S ("r")), none, none, none, none, none⟩

/-- C1 witness: the amended theorem evaluated on a concrete store that
already holds a digest for the requested identifier. -/
theorem ingest_always_replaces_witness :
    (wC1args.repo_uri = some (S ("r")))
    ∧ (S ("r") ≠ ([] : Str))
    ∧ (wC1fn (S ("r")) (optsOf wC1args) = Except.ok wC1digest)
    ∧ (handle_ingest_repo wC1fn wC1store wC1args
        = Except.ok (storePut wC1store (S ("r")) wC1digest,
            successMessage (S ("r")) wC1digest (wC1digest.tree.count '\n')
              (wC1digest.content.length / 4) wC1args.output_file)
      ∧ storeGet (storePut wC1store (S ("r")) wC1digest) (S ("r")) = some wC1digest) :=
  ⟨rfl, by decide, rfl,
   ingest_always_replaces wC1fn wC1store wC1args (S ("r")) wC1digest rfl
     (by decide) rfl⟩

/-- C7 counterexample: a query for an identifier with no stored Digest is
not converted into a normal textual result at the facade boundary — it is
raised to the transport layer as a `ValueError` (carrying the list of
known identifiers), exactly like a malformed-argument error. -/
theorem query_error_conversion_refuted :
    handle_query_repo [] ⟨some (S ("r")), some (S ("summary")), none, none⟩
      = QueryOut.raised (S ("Repository not ingested yet: r. Use the ingest-repo tool first.\nAvailable repositories: []")) := by
  decide

/-- C7 amended: a failure of the external ingestion collaborator is caught
and returned as a normal textual result (with the store untouched), but a
lookup of a not-ingested identifier is raised as a hard request error
carrying the known identifiers, as is a missing required argument. -/
theorem error_propagation_policy (ig : Str → IngestOpts → Except Str Digest)
    (store : Store) (args : IngestArgs) (u e : Str)
    (hu : args.repo_uri = some u) (hne : u ≠ [])
    (hfail : ig u (optsOf args) = Except.error e) :
    handle_ingest_repo ig store args
      = Except.ok (store, S ("Error ingesting repository ") ++ u ++ S (": ") ++ e)
    ∧ (∀ args2 : IngestArgs, args2.repo_uri = none →
        handle_ingest_repo ig store args2 = Except.error (S ("Missing repo_uri")))
    ∧ (∀ q : Str, ∀ store2 : Store, q ≠ [] →
        (∀ p ∈ store2, ¬((p : Str × Digest).1 = q ∨ List.isSuffixOf q p.1 = true)) →
        handle_query_repo store2 ⟨some q, some (S ("summary")), none, none⟩
          = .raised (notIngestedMsg q (storeKeys store2))) := by
  refine ⟨?_, ?_, ?_⟩
  · unfold handle_ingest_repo
    rw [hu, pyTruthy_of_ne u hne]
    simp [hfail]
  · intro args2 h2
    unfold handle_ingest_repo
    rw [h2]
    simp [pyTruthy]
  · intro q store2 hq hmatch
    have hnone : store2.find? (fun p => p.1 == q || List.isSuffixOf q p.1) = none := by
      rw [List.find?_eq_none]
      intro x hx
      have hx2 := hmatch x hx
      simp only [Bool.or_eq_true, beq_iff_eq]
      tauto
    unfold handle_query_repo
    simp [pyTruthy_of_ne q hq, hnone,
      show pyTruthy (some (S ("summary"))) = true from by decide]

/-- C6 counterexample: the resolution loop gives no priority to an exact
key.  With keys inserted in the order xq then q, resolving the query q
returns xq (an earlier suffix match) even though q itself is a stored
key, and the query handler serves the digest of xq. -/
theorem resolve_exact_priority_refuted :
    resolveUri [S ("xq"), S ("q")] (S ("q")) = some (S ("xq"))
    ∧ (S ("q")) ∈ [S ("xq"), S ("q")]
    ∧ handle_query_repo
        [(S ("xq"), ⟨S ("s1"), S ("t1"), S ("c1")⟩),
         (S ("q"), ⟨S ("s2"), S ("t2"), S ("c2")⟩)]
        ⟨some (S ("q")), some (S ("summary")), none, none⟩
      = QueryOut.text (S ("s1")) :=
  ⟨by decide, by decide, by decide⟩

/-- C6 amended: resolution scans the stored keys in insertion order and
returns the first key that equals the query or ends with it — an exact
match has no priority over an earlier suffix match; when no key matches,
the handler raises the not-ingested error carrying all stored keys. -/
theorem resolve_first_match (pre post : List Str) (k q : Str)
    (hpre : ∀ k2 ∈ pre, ¬(k2 = q ∨ List.isSuffixOf q k2 = true))
    (hk : k = q ∨ List.isSuffixOf q k = true) :
    resolveUri (pre ++ k :: post) q = some k
    ∧ (∀ keys : List Str,
        (∀ k2 ∈ keys, ¬(k2 = q ∨ List.isSuffixOf q k2 = true)) →
        resolveUri keys q = none)
    ∧ (∀ store2 : Store, q ≠ [] →
        (∀ p ∈ store2, ¬((p : Str × Digest).1 = q ∨ List.isSuffixOf q p.1 = true)) →
        handle_query_repo store2 ⟨some q, some (S ("summary")), none, none⟩
          = .raised (notIngestedMsg q (storeKeys store2))) := by
  refine ⟨?_, ?_, ?_⟩
  · have hkb : (k == q || List.isSuffixOf q k) = true := by
      rcases hk with h | h
      · simp [h]
      · simp [h]
    induction pre with
    | nil =>
      unfold resolveUri
      rw [List.nil_append,
        @List.find?_cons_of_pos Str (fun k2 => k2 == q || List.isSuffixOf q k2)
          k post hkb]
    | cons a pre2 ih =>
      have ha : (a == q || List.isSuffixOf q a) = false := by
        have h2 := hpre a (List.mem_cons_self a pre2)
        rw [Bool.eq_false_iff]
        intro hb
        exact h2 (by simpa [Bool.or_eq_true, beq_iff_eq] using hb)
      unfold resolveUri at ih ⊢
      rw [List.cons_append,
        @List.find?_cons_of_neg Str (fun k2 => k2 == q || List.isSuffixOf q k2)
          a (pre2 ++ k :: post) (by simp [ha])]
      exact ih (fun k2 h => hpre k2 (List.mem_cons_of_mem a h))
  · intro keys hkeys
    unfold resolveUri
    rw [List.find?_eq_none]
    intro x hx
    have := hkeys x hx
    simp only [Bool.or_eq_true, beq_iff_eq]
    tauto
  · intro store2 hq hmatch
    have hnone : store2.find? (fun p => p.1 == q || List.isSuffixOf q p.1) = none := by
      rw [List.find?_eq_none]
      intro x hx
      have := hmatch x hx
      simp only [Bool.or_eq_true, beq_iff_eq]
      tauto
    unfold handle_query_repo
    simp [pyTruthy_of_ne q hq, hnone,
      show pyTruthy (some (S ("summary"))) = true from by decide]

/-- C6 witness: with stored keys ab, xq, q (in that order), the query q
resolves to xq, the first suffix match, not to the exact key q. -/
theorem resolve_first_match_witness :
    (∀ k2 ∈ [S ("ab")], ¬(k2 = S ("q") ∨ List.isSuffixOf (S ("q")) k2 = true))
    ∧ (S ("xq") = S ("q") ∨ List.isSuffixOf (S ("q")) (S ("xq")) = true)
    ∧ resolveUri ([S ("ab")] ++ S ("xq") :: [S ("q")]) (S ("q")) = some (S ("xq")) :=
  ⟨by decide, by decide,
   (resolve_first_match [S ("ab")] [S ("q")] (S ("xq")) (S ("q"))
      (by decide) (by decide)).1⟩

/-- C8 counterexample: the facet value `all` is not accepted — it is not
in the schema enum, and supplying it simply falls off the end of the
handler (no returned text, no concatenation of the three facets). -/
theorem all_facet_refuted :
    handle_query_repo [(S ("r"), ⟨S ("s"), S ("t"), S ("c")⟩)]
        ⟨some (S ("r")), some (S ("all")), none, none⟩ = QueryOut.noResult
    ∧ S ("all") ∉ resourceTypeEnum :=
  ⟨by decide, by decide⟩

/-- C8 amended: the query operation accepts exactly the facet values
summary, tree and content, returning the corresponding stored facet text;
`all` is not in the schema enum, and any other facet value (including
`all`) produces no result at all rather than a concatenation. -/
theorem facet_acceptance (store : Store) (u k : Str) (d : Digest)
    (hu : u ≠ [])
    (hres : store.find? (fun q => q.1 == u || List.isSuffixOf u q.1) = some (k, d)) :
    handle_query_repo store ⟨some u, some (S ("summary")), none, none⟩ = .text d.summary
    ∧ handle_query_repo store ⟨some u, some (S ("tree")), none, none⟩ = .text d.tree
    ∧ handle_query_repo store ⟨some u, some (S ("content")), none, none⟩ = .text d.content
    ∧ (∀ rtv : Str, rtv ≠ [] → rtv ∉ resourceTypeEnum →
        handle_query_repo store ⟨some u, some rtv, none, none⟩ = QueryOut.noResult)
    ∧ S ("all") ∉ resourceTypeEnum := by
  refine ⟨?_, ?_, ?_, ?_, by decide⟩
  · rw [query_repo_unfold store u (k, d) _ none none hu (by decide) hres, if_pos rfl]
  · rw [query_repo_unfold store u (k, d) _ none none hu (by decide) hres,
      if_neg (by decide), if_pos rfl]
  · rw [query_repo_unfold store u (k, d) _ none none hu (by decide) hres,
      if_neg (by decide), if_neg (by decide), if_pos rfl]
    simp [pyTruthy]
  · intro rtv h1 h2
    simp only [resourceTypeEnum, List.mem_cons, List.not_mem_nil, or_false,
      not_or] at h2
    rw [query_repo_unfold store u (k, d) rtv none none hu h1 hres,
      if_neg h2.1, if_neg h2.2.1, if_neg h2.2.2]

/-- C8 witness: the amended theorem evaluated on a one-entry store, with
the facet value `all` yielding no result. -/
theorem facet_acceptance_witness :
    (S ("r") ≠ ([] : Str))
    ∧ ([(S ("r"), wDigest)].find?
        (fun q => q.1 == S ("r") || List.isSuffixOf (S ("r")) q.1)
        = some (S ("r"), wDigest))
    ∧ handle_query_repo [(S ("r"), wDigest)]
        ⟨some (S ("r")), some (S ("all")), none, none⟩ = QueryOut.noResult :=
  ⟨by decide, by decide,
   (facet_acceptance [(S ("r"), wDigest)] (S ("r")) (S ("r")) wDigest
      (by decide) (by decide)).2.2.2.1 (S ("all")) (by decide) (by decide)⟩

/-- C9 counterexample: the decode loop does not compare the encoding of a
stored key with the token itself — it compares it with the encoding of
the token.  For the stored key a_c and the token a.c, the code resolves
the token to a_c (both encode to a_c), while the behaviour the claim
describes finds no match: encode(a_c) = a_c differs from the token a.c,
and a_c differs literally from a.c. -/
theorem decode_literal_token_refuted :
    resolveResourceKey [S ("a_c")] (S ("a.c")) = some (S ("a_c"))
    ∧ decodeSpec [S ("a_c")] (S ("a.c")) = none :=
  ⟨by decide, by decide⟩

/-- C9 amended: encode is total and deterministic and eliminates every
slash and dot (replacing the three separator substrings by underscores,
in order); decode returns the first known identifier whose encoding
equals the encoding of the token, or whose literal value equals the
token, and when none matches the read handler fails carrying the list of
known identifiers. -/
theorem decode_first_match (pre post : List Str) (k token : Str)
    (hpre : ∀ k2 ∈ pre, ¬(encode k2 = encode token ∨ k2 = token))
    (hk : encode k = encode token ∨ k = token) :
    resolveResourceKey (pre ++ k :: post) token = some k
    ∧ (∀ keys : List Str,
        (∀ k2 ∈ keys, ¬(encode k2 = encode token ∨ k2 = token)) →
        resolveResourceKey keys token = none)
    ∧ (∀ store2 : Store, ∀ rt2 : Str,
        (∀ p ∈ store2, ¬(encode (p : Str × Digest).1 = encode token ∨ p.1 = token)) →
        handle_read_resource store2 token rt2
          = Except.error (S ("No gitingest results found for: ") ++ token
              ++ S (". Available keys: ") ++ pyReprStrList (storeKeys store2)))
    ∧ (∀ s : Str, '/' ∉ encode s ∧ '.' ∉ encode s) := by
  refine ⟨?_, ?_, ?_, fun s => ⟨slash_not_mem_encode s, dot_not_mem_encode s⟩⟩
  · have hkb : (encode k == encode token || k == token) = true := by
      rcases hk with h | h
      · simp [h]
      · simp [h]
    induction pre with
    | nil =>
      unfold resolveResourceKey
      rw [List.nil_append,
        @List.find?_cons_of_pos Str
          (fun k2 => encode k2 == encode token || k2 == token) k post hkb]
    | cons a pre2 ih =>
      have ha : (encode a == encode token || a == token) = false := by
        have h2 := hpre a (List.mem_cons_self a pre2)
        rw [Bool.eq_false_iff]
        intro hb
        exact h2 (by simpa [Bool.or_eq_true, beq_iff_eq] using hb)
      unfold resolveResourceKey at ih ⊢
      rw [List.cons_append,
        @List.find?_cons_of_neg Str
          (fun k2 => encode k2 == encode token || k2 == token)
          a (pre2 ++ k :: post) (by simp [ha])]
      exact ih (fun k2 h => hpre k2 (List.mem_cons_of_mem a h))
  · intro keys hkeys
    unfold resolveResourceKey
    rw [List.find?_eq_none]
    intro x hx
    have := hkeys x hx
    simp only [Bool.or_eq_true, beq_iff_eq]
    tauto
  · intro store2 rt2 hmatch
    have hnone : store2.find? (fun p => encode p.1 == encode token || p.1 == token)
        = none := by
      rw [List.find?_eq_none]
      intro x hx
      have := hmatch x hx
      simp only [Bool.or_eq_true, beq_iff_eq]
      tauto
    unfold handle_read_resource
    rw [hnone]

/-- C9 witness: with known identifiers b and a_c, the token a.c decodes
to a_c (their encodings agree), the earlier key b matching neither way. -/
theorem decode_first_match_witness :
    (∀ k2 ∈ [S ("b")], ¬(encode k2 = encode (S ("a.c")) ∨ k2 = S ("a.c")))
    ∧ (encode (S ("a_c")) = encode (S ("a.c")) ∨ S ("a_c") = S ("a.c"))
    ∧ resolveResourceKey ([S ("b")] ++ S ("a_c") :: []) (S ("a.c"))
      = some (S ("a_c")) :=
  ⟨by decide, by decide,
   (decode_first_match [S ("b")] [] (S ("a_c")) (S ("a.c"))
      (by decide) (by decide)).1⟩

/-- C4 counterexample: when the special case applies (the query uri
contains browser-use), the verbatim candidate is never tried.  Here the
content contains the verbatim delimiter for a.txt, yet the query reports
the file as not found, because only the hardcoded
browser-use-browser-use candidate was searched and the fallback block is
skipped. -/
theorem verbatim_fallback_refuted :
    handle_query_repo [(S ("browser-use"), ⟨S ("s"), S ("T"), S ("### a.txt\nX")⟩)]
        ⟨some (S ("browser-use")), some (S ("content")), some (S ("a.txt")), none⟩
      = QueryOut.text (S ("File not found: a.txt\n\nAvailable files:\nT"))
    ∧ strContains (S ("### a.txt\nX")) (mkMarker (S ("a.txt"))) = true :=
  ⟨by decide, by decide⟩

/-- C4 amended: the marker search is equivalent to scanning an explicit
ordered candidate list: when the query uri contains browser-use, the
single hardcoded candidate 1 and nothing else; otherwise the verbatim
candidate 2 followed by candidates 3 and 4 (the latter two skipped when
the verbatim marker itself contains the special-case prefix); the first
candidate found by substring search wins. -/
theorem marker_candidate_order (content u repoName fp : Str) :
    fileMarkerSearch content u repoName fp
      = firstFoundMarker content (candidateMarkers u repoName fp) := by
  unfold fileMarkerSearch candidateMarkers
  by_cases h1 : strContains u (S ("browser-use")) = true
  · rw [if_pos h1, if_pos h1]
    cases hf : strFind content (mkMarker (S ("browser-use-browser-use/") ++ fp)) with
    | some i => simp [firstFoundMarker, hf]
    | none =>
      have hc : strContains (mkMarker (S ("browser-use-browser-use/") ++ fp))
          (S ("browser-use-browser-use/")) = true := by
        have h := strContains_middle (S ("### ")) (S ("browser-use-browser-use/"))
          (fp ++ S ("\n"))
        simpa [mkMarker, List.append_assoc] using h
      simp [firstFoundMarker, hf, hc]
  · rw [if_neg h1, if_neg h1]
    by_cases h2 : strContains (mkMarker fp) (S ("browser-use-browser-use/")) = true
    · rw [if_pos h2]
      cases hf : strFind content (mkMarker fp) with
      | some i => simp [firstFoundMarker, hf]
      | none => simp [firstFoundMarker, hf, h2]
    · rw [if_neg h2]
      have h2b : strContains (mkMarker fp) (S ("browser-use-browser-use/")) = false := by
        simpa using h2
      cases hf : strFind content (mkMarker fp) with
      | some i => simp [firstFoundMarker, hf]
      | none =>
        simp only [firstFoundMarker, hf, h2b]
        cases hf1 : strFind content
            (mkMarker (repoName ++ (S ("-") ++ (repoName ++ (S ("/") ++ fp))))) with
        | some i => simp [firstFoundMarker, hf1, h2b]
        | none =>
          cases hf2 : strFind content (mkMarker (repoName ++ (S ("/") ++ fp))) with
          | some i => simp [firstFoundMarker, hf1, hf2, h2b]
          | none => simp [firstFoundMarker, hf1, hf2, h2b]

/-- The text carried by a query result (empty for the no-result case). -/
def textOf : QueryOut → Str
  | QueryOut.text s => s
  | QueryOut.noResult => []
  | QueryOut.raised m => m

/-- Content blob of the C3 counterexample: one file section whose 101
lines all match the search term. -/
def wC3fileContent : Str :=
  S ("### f\n") ++ joinNL ((List.range 101).map (fun _ => S ("x")))

/-- C3 counterexample: the file-scoped search of the file branch has no
cap.  The extracted section has 101 matching lines; the report carries
the 101st match (so more than 100 matching lines are returned) and no
count of remaining matches. -/
theorem file_search_cap_refuted :
    (numberedMatches (sectionAt wC3fileContent 6) (S ("x"))).length = 101
    ∧ strContains (textOf (handle_query_repo
        [(S ("r"), ⟨S ("s"), S ("T"), wC3fileContent⟩)]
        ⟨some (S ("r")), some (S ("content")), some (S ("f")), some (S ("x"))⟩))
        (S ("101: x")) = true
    ∧ strContains (textOf (handle_query_repo
        [(S ("r"), ⟨S ("s"), S ("T"), wC3fileContent⟩)]
        ⟨some (S ("r")), some (S ("content")), some (S ("f")), some (S ("x"))⟩))
        (S ("more matches")) = false :=
  ⟨by decide, by decide, by decide⟩

/-- C3 amended: the full-content search returns at most the first 100
matching lines and, when more than 100 match, the exact count of the
remaining ones; the file-scoped search instead appends every matching
line of the extracted section, with no cap and no remaining count. -/
theorem search_cap_and_overflow (store : Store) (u k t : Str) (d : Digest)
    (hu : u ≠ []) (ht : t ≠ [])
    (hres : store.find? (fun q => q.1 == u || List.isSuffixOf u q.1) = some (k, d))
    (hml : numberedMatches d.content t ≠ []) :
    handle_query_repo store ⟨some u, some (S ("content")), none, some t⟩
      = .text (S ("Search results for ") ++ sqc ++ t ++ sqc ++ S (":\n")
          ++ joinNL ((numberedMatches d.content t).take 100)
          ++ (if 100 < (numberedMatches d.content t).length
              then S ("\n\n...and ")
                ++ natToStr ((numberedMatches d.content t).length - 100)
                ++ S (" more matches.")
              else []))
    ∧ ((numberedMatches d.content t).take 100).length ≤ 100
    ∧ (∀ content2 tree2 u2 rn2 fp2 fm : Str, ∀ idx : Nat,
        fileMarkerSearch content2 u2 rn2 fp2 = some (fm, idx) →
        strContains (sectionAt content2 (idx + fm.length)) t = true →
        fileQueryText content2 tree2 u2 rn2 fp2 (some t)
          = S ("File: ") ++ fp2 ++ S ("\n\n")
            ++ pyStrip (sectionAt content2 (idx + fm.length))
            ++ (S ("\n\nMatches for ") ++ sqc ++ t ++ sqc ++ S (":\n")
              ++ joinNL (numberedMatches (sectionAt content2 (idx + fm.length)) t))) := by
  refine ⟨?_, ?_, ?_⟩
  · rw [query_repo_unfold store u (k, d) _ none (some t) hu (by decide) hres,
      if_neg (by decide), if_neg (by decide), if_pos rfl,
      if_neg (by decide : ¬(pyTruthy none = true)),
      if_pos (pyTruthy_of_ne t ht)]
    simp only [Option.getD_some]
    have hml2 : (numberedMatches d.content t).isEmpty = false := by
      cases hX : numberedMatches d.content t with
      | nil => exact absurd hX hml
      | cons a l => rfl
    unfold searchAllText
    rw [if_neg (by simp [hml2])]
    by_cases hlen : 100 < (numberedMatches d.content t).length
    · rw [if_pos hlen, if_pos hlen]
      simp [List.append_assoc]
    · rw [if_neg hlen, if_neg hlen]
      simp [List.append_assoc]
  · rw [List.length_take]
    exact min_le_left _ _
  · intro content2 tree2 u2 rn2 fp2 fm idx hm hocc
    have hte : t.isEmpty = false := by
      cases t with
      | nil => exact absurd rfl ht
      | cons c cs => rfl
    unfold fileQueryText
    rw [hm]
    simp [hte, hocc, fileMatchesBlock, List.append_assoc]

/-- Content of the C3 witness: 101 lines all matching the search term. -/
def wC3content : Str := joinNL ((List.range 101).map (fun _ => S ("x")))

/-- Digest of the C3 witness. -/
def wC3digest : Digest := ⟨S ("s"), S ("T"), wC3content⟩

/-- Store of the C3 witness. -/
def wC3store : Store := [(S ("r"), wC3digest)]

/-- C3 witness: the amended theorem evaluated on a store whose content
has 101 matching lines, so the full search shows 100 of them plus the
exact remaining count. -/
theorem search_cap_and_overflow_witness :
    (S ("r") ≠ ([] : Str)) ∧ (S ("x") ≠ ([] : Str))
    ∧ (wC3store.find? (fun q => q.1 == S ("r") || List.isSuffixOf (S ("r")) q.1)
        = some (S ("r"), wC3digest))
    ∧ numberedMatches wC3digest.content (S ("x")) ≠ []
    ∧ ((numberedMatches wC3digest.content (S ("x"))).take 100).length ≤ 100
    ∧ handle_query_repo wC3store
        ⟨some (S ("r")), some (S ("content")), none, some (S ("x"))⟩
      = .text (S ("Search results for ") ++ sqc ++ S ("x") ++ sqc ++ S (":\n")
          ++ joinNL ((numberedMatches wC3digest.content (S ("x"))).take 100)
          ++ (if 100 < (numberedMatches wC3digest.content (S ("x"))).length
              then S ("\n\n...and ")
                ++ natToStr ((numberedMatches wC3digest.content (S ("x"))).length - 100)
                ++ S (" more matches.")
              else [])) := by
  have h := search_cap_and_overflow wC3store (S ("r")) (S ("r")) (S ("x")) wC3digest
    (by decide) (by decide) (by decide) (by decide)
  exact ⟨by decide, by decide, by decide, by decide, h.2.1, h.1⟩

/-- Failing collaborator oracle of the C7 witness. -/
def wC7fn : Str → IngestOpts → Except Str Digest :=
  fun _ _ => Except.error (S ("boom"))

/-- Arguments of the C7 witness. -/
def wC7args : IngestArgs := ⟨some (S ("r")), none, none, none, none, none⟩

/-- C7 witness: a collaborator failure comes back as a normal textual
result with the store unchanged. -/
theorem error_propagation_policy_witness :
    (wC7args.repo_uri = some (S ("r")))
    ∧ (S ("r") ≠ ([] : Str))
    ∧ (wC7fn (S ("r")) (optsOf wC7args) = Except.error (S ("boom")))
    ∧ handle_ingest_repo wC7fn [] wC7args
      = Except.ok (([] : Store),
          S ("Error ingesting repository ") ++ S ("r") ++ S (": ") ++ S ("boom")) :=
  ⟨rfl, by decide, rfl,
   (error_propagation_policy wC7fn [] wC7args (S ("r")) (S ("boom")) rfl
      (by decide) rfl).1⟩
